import Mathlib

/-!
Shallow embedding of the gtm ticket-allocation core (crates/db/src/lib.rs and
the allocation handlers of crates/app/src/main.rs).

Tables are modelled as lists of rows, in the style of a SQL table: an
UPDATE statement maps its SET clause over every row matched by its WHERE
clause and reports the number of matched rows (rows_affected); an INSERT
appends a row.  Column timestamps (created_at, updated_at) are bookkeeping
written on every mutation and are not modelled; no claim mentions them.
Autoincrement primary keys are modelled by passing the fresh id explicitly.
i64 columns become Int, u64 counts become Nat, TEXT columns become String,
nullable columns become Option.
-/

/-- Row of the game_tickets table (columns used by the allocation core). -/
structure TicketRow where
  id : Int
  gamePk : Int
  seatId : Int
  status : String
  assignedTo : Option Int
  notes : Option String
deriving DecidableEq, Repr

/-- Row of the ticket_requests table. -/
structure RequestRow where
  id : Int
  userId : Int
  gamePk : Int
  seatsRequested : Int
  seatsApproved : Int
  status : String
  notes : Option String
deriving DecidableEq, Repr

/-- Row of the games table, restricted to the columns the allocation core
reads (game_pk, home_team_name for the home-game filter, and the descriptive
columns the allocation summary endpoint copies out).  The remaining columns
of the games table are never read by the modelled operations. -/
structure GameRow where
  gamePk : Int
  homeTeamName : String
  awayTeamName : String
  officialDate : String
  gameDate : String
deriving DecidableEq, Repr

/-- Row of the seats table.  The source column name section is a Lean
keyword, so it is rendered sectionName. -/
structure SeatRow where
  id : Int
  sectionName : String
  row : String
  seat : String
  notes : Option String
deriving DecidableEq, Repr

/-- GIANTS_TEAM_NAME from crates/db/src/lib.rs. -/
def giants_team_name : String := "San Francisco Giants"

-- --- Seats ---

/-- add_seat from crates/db/src/lib.rs: INSERT INTO seats (section, row,
seat, notes) VALUES (?, ?, ?, ?) RETURNING the new row.  There is no
validation of the field values.  newId models the autoincrement key. -/
def add_seat (seats : List SeatRow) (sectionName row seat : String)
    (notes : Option String) (newId : Int) : List SeatRow × SeatRow :=
  let s : SeatRow := ⟨newId, sectionName, row, seat, notes⟩
  (seats ++ [s], s)

-- --- Game tickets ---

/-- WHERE clause id = ? AND status = (available) of assign_ticket. -/
def availableWithId (gameTicketId : Int) (r : TicketRow) : Bool :=
  r.id == gameTicketId && r.status == "available"

/-- assign_ticket from crates/db/src/lib.rs: UPDATE game_tickets SET
assigned_to = ?, status = (assigned) WHERE id = ? AND status = (available);
returns the updated table and rows_affected > 0. -/
def assign_ticket (tickets : List TicketRow) (gameTicketId userId : Int) :
    List TicketRow × Bool :=
  (tickets.map fun r =>
      if availableWithId gameTicketId r then
        { r with assignedTo := some userId, status := "assigned" }
      else r,
   0 < (tickets.countP (availableWithId gameTicketId)))

/-- WHERE clause id = ? AND status = (assigned) of revoke_ticket. -/
def assignedWithId (gameTicketId : Int) (r : TicketRow) : Bool :=
  r.id == gameTicketId && r.status == "assigned"

/-- revoke_ticket from crates/db/src/lib.rs: UPDATE game_tickets SET
assigned_to = NULL, status = (available) WHERE id = ? AND
status = (assigned); returns the updated table and rows_affected > 0. -/
def revoke_ticket (tickets : List TicketRow) (gameTicketId : Int) :
    List TicketRow × Bool :=
  (tickets.map fun r =>
      if assignedWithId gameTicketId r then
        { r with assignedTo := none, status := "available" }
      else r,
   0 < (tickets.countP (assignedWithId gameTicketId)))

/-- WHERE clause game_pk = ? AND assigned_to = ? of
release_tickets_for_game. -/
def assignedInGame (gamePk userId : Int) (r : TicketRow) : Bool :=
  r.gamePk == gamePk && r.assignedTo == some userId

/-- release_tickets_for_game from crates/db/src/lib.rs: UPDATE game_tickets
SET assigned_to = NULL, status = (available) WHERE game_pk = ? AND
assigned_to = ?; returns the updated table and rows_affected. -/
def release_tickets_for_game (tickets : List TicketRow) (gamePk userId : Int) :
    List TicketRow × Nat :=
  (tickets.map fun r =>
      if assignedInGame gamePk userId r then
        { r with assignedTo := none, status := "available" }
      else r,
   tickets.countP (assignedInGame gamePk userId))

/-- update_ticket_status from crates/db/src/lib.rs: UPDATE game_tickets SET
status = ?, notes = ? WHERE id = ?.  Note that the SET clause does not
touch assigned_to and the status string is whatever the caller supplies. -/
def update_ticket_status (tickets : List TicketRow) (ticketId : Int)
    (status : String) (notes : Option String) : List TicketRow × Bool :=
  (tickets.map fun r =>
      if r.id == ticketId then { r with status := status, notes := notes }
      else r,
   0 < (tickets.countP fun r => r.id == ticketId))

-- --- Ticket generation ---

/-- Does the game_tickets table already hold a row for the (game, seat)
pair?  This is the conflict test of the ON CONFLICT DO NOTHING clause.
Modelled from the spec: the migrations, which are not under the given
sources, declare game_tickets UNIQUE on (game_pk, seat_id) - the spec
states tables game_tickets (unique on seat+game). -/
def hasTicketFor (tickets : List TicketRow) (gamePk seatId : Int) : Bool :=
  tickets.any fun t => t.gamePk == gamePk && t.seatId == seatId

/-- Shared body of the two generation statements: INSERT INTO game_tickets
(game_pk, seat_id, status) SELECT ... (available) ... ON CONFLICT DO
NOTHING, run over a list of candidate (game_pk, seat_id) pairs.  Each
candidate row is inserted with status available unless the table (including
rows inserted earlier in the same statement) already has a row for the
pair; returns the table, the next fresh id, and rows_affected. -/
def insertTicketsIfAbsent (tickets : List TicketRow) (nextId : Int) :
    List (Int × Int) → List TicketRow × Int × Nat
  | [] => (tickets, nextId, 0)
  | p :: rest =>
    if hasTicketFor tickets p.1 p.2 then
      insertTicketsIfAbsent tickets nextId rest
    else
      let out := insertTicketsIfAbsent
        (tickets ++ [⟨nextId, p.1, p.2, "available", none, none⟩])
        (nextId + 1) rest
      (out.1, out.2.1, out.2.2 + 1)

/-- Candidate pairs of generate_tickets_for_seat: SELECT game_pk, ?,
(available) FROM games WHERE home_team_name = (Giants). -/
def homeGamePairsForSeat (games : List GameRow) (seatId : Int) :
    List (Int × Int) :=
  (games.filter fun g => g.homeTeamName == giants_team_name).map
    fun g => (g.gamePk, seatId)

/-- generate_tickets_for_seat from crates/db/src/lib.rs: insert an
available ticket for the seat for every home game, skipping pairs that
already have one; returns (table, next id, rows_affected). -/
def generate_tickets_for_seat (games : List GameRow)
    (tickets : List TicketRow) (seatId nextId : Int) :
    List TicketRow × Int × Nat :=
  insertTicketsIfAbsent tickets nextId (homeGamePairsForSeat games seatId)

/-- Candidate pairs of generate_tickets_for_all_seats: FROM games g CROSS
JOIN seats s WHERE g.home_team_name = (Giants). -/
def homeGamePairsAllSeats (games : List GameRow) (seats : List SeatRow) :
    List (Int × Int) :=
  (games.filter fun g => g.homeTeamName == giants_team_name).flatMap
    fun g => seats.map fun s => (g.gamePk, s.id)

/-- generate_tickets_for_all_seats from crates/db/src/lib.rs: same insert
as generate_tickets_for_seat over the cross product of home games and all
seats. -/
def generate_tickets_for_all_seats (games : List GameRow)
    (seats : List SeatRow) (tickets : List TicketRow) (nextId : Int) :
    List TicketRow × Int × Nat :=
  insertTicketsIfAbsent tickets nextId (homeGamePairsAllSeats games seats)

-- --- Ticket requests ---

/-- WHERE clause of the ON CONFLICT(user_id, game_pk) target. -/
def requestForUserGame (userId gamePk : Int) (r : RequestRow) : Bool :=
  r.userId == userId && r.gamePk == gamePk

/-- create_ticket_request from crates/db/src/lib.rs: INSERT INTO
ticket_requests (user_id, game_pk, seats_requested, notes) ON
CONFLICT(user_id, game_pk) DO UPDATE SET seats_requested = excluded,
notes = excluded, status = CASE WHEN status = (withdrawn) THEN (pending)
ELSE status END.  Modelled from the spec for the parts the migrations
carry: the UNIQUE(user_id, game_pk) constraint that the ON CONFLICT clause
names, and the column defaults status = (pending), seats_approved = 0 of a
fresh insert (the spec: otherwise insert new pending row with
seats_approved=0).  newId models the autoincrement key. -/
def create_ticket_request (reqs : List RequestRow) (userId gamePk : Int)
    (seatsRequested : Int) (notes : Option String) (newId : Int) :
    List RequestRow :=
  if reqs.any (requestForUserGame userId gamePk) then
    reqs.map fun r =>
      if requestForUserGame userId gamePk r then
        { r with
            seatsRequested := seatsRequested,
            notes := notes,
            status := if r.status == "withdrawn" then "pending" else r.status }
      else r
  else
    reqs ++ [⟨newId, userId, gamePk, seatsRequested, 0, "pending", notes⟩]

/-- update_request_approval from crates/db/src/lib.rs: UPDATE
ticket_requests SET seats_approved = seats_approved + ?, status = ?
WHERE id = ?; returns the updated table and rows_affected > 0. -/
def update_request_approval (reqs : List RequestRow) (requestId : Int)
    (seatsApproved : Int) (status : String) : List RequestRow × Bool :=
  (reqs.map fun r =>
      if r.id == requestId then
        { r with seatsApproved := r.seatsApproved + seatsApproved,
                 status := status }
      else r,
   0 < (reqs.countP fun r => r.id == requestId))

-- --- Allocation summary ---

/-- WHERE clause of the total_requested subquery: tr.game_pk = g.game_pk
AND tr.status = (pending). -/
def pendingForGame (gamePk : Int) (r : RequestRow) : Bool :=
  r.gamePk == gamePk && r.status == "pending"

/-- allocation_summary from crates/db/src/lib.rs: per home game with at
least one game ticket (inner JOIN), the tuple (game_pk, total_seats,
assigned, available, total_requested), where total_requested sums
seats_requested over the pending requests of the game (COALESCE to 0).
The ORDER BY g.game_date clause only permutes rows and is not modelled;
rows appear in games-table order. -/
def allocation_summary (games : List GameRow) (tickets : List TicketRow)
    (reqs : List RequestRow) : List (Int × Int × Int × Int × Int) :=
  (games.filter fun g => g.homeTeamName == giants_team_name).filterMap
    fun g =>
      let ts := tickets.filter fun t => t.gamePk == g.gamePk
      if ts.isEmpty then none
      else some (g.gamePk, (ts.length : Int),
        ((ts.countP fun t => t.status == "assigned") : Int),
        ((ts.countP fun t => t.status == "available") : Int),
        ((reqs.filter (pendingForGame g.gamePk)).map
            (fun r => r.seatsRequested)).sum)

-- --- App handlers (crates/app/src/main.rs) ---

/-- AllocationSummaryRow from crates/app/src/main.rs. -/
structure AllocationSummaryRow where
  gamePk : Int
  officialDate : String
  awayTeamName : String
  totalSeats : Int
  assigned : Int
  available : Int
  totalRequested : Int
  oversubscribed : Bool
deriving DecidableEq, Repr

/-- api_admin_allocation from crates/app/src/main.rs: decorates each
allocation_summary tuple with the official date and opponent looked up in
the games list, computing oversubscribed = total_requested > available.
The Rust HashMap lookup is modelled by find? on the games list; the games
table is unique on game_pk, so the first match is the only one. -/
def api_admin_allocation (games : List GameRow) (tickets : List TicketRow)
    (reqs : List RequestRow) : List AllocationSummaryRow :=
  (allocation_summary games tickets reqs).filterMap fun t =>
    match games.find? (fun g => g.gamePk == t.1) with
    | none => none
    | some g =>
      some ⟨t.1, g.officialDate, g.awayTeamName, t.2.1, t.2.2.1,
        t.2.2.2.1, t.2.2.2.2, decide (t.2.2.2.2 > t.2.2.2.1)⟩

/-- AllocateBody from crates/app/src/main.rs. -/
structure AllocateBody where
  gameTicketId : Int
  userId : Int
  requestId : Option Int
deriving DecidableEq, Repr

/-- One step of building the request_approvals map:
*request_approvals.entry(rid).or_insert(0) += 1.  The HashMap is modelled
as an association list with distinct keys. -/
def bumpApproval : List (Int × Int) → Int → List (Int × Int)
  | [], rid => [(rid, 1)]
  | (k, v) :: rest, rid =>
    if k == rid then (k, v + 1) :: rest
    else (k, v) :: bumpApproval rest rid

/-- Loop of api_admin_allocate from crates/app/src/main.rs: attempt
assign_ticket for each entry; on success increment assigned_count and, if
the entry carries a request_id, bump its entry of the approvals map. -/
def allocateLoop (tickets : List TicketRow) (cnt : Nat)
    (apprs : List (Int × Int)) :
    List AllocateBody → List TicketRow × Nat × List (Int × Int)
  | [] => (tickets, cnt, apprs)
  | a :: rest =>
    let step := assign_ticket tickets a.gameTicketId a.userId
    if step.2 then
      allocateLoop step.1 (cnt + 1)
        (match a.requestId with
          | some rid => bumpApproval apprs rid
          | none => apprs) rest
    else
      allocateLoop step.1 cnt apprs rest

/-- api_admin_allocate from crates/app/src/main.rs: run the assignment
loop, then apply update_request_approval(rid, seats, (approved)) for each
entry of the approvals map.  The HashMap iteration order is arbitrary in
the source; the model iterates the association list in key-first-seen
order, which is equivalent because the updates target distinct request
ids.  Returns (game_tickets table, ticket_requests table,
assigned_count). -/
def api_admin_allocate (tickets : List TicketRow) (reqs : List RequestRow)
    (assignments : List AllocateBody) :
    List TicketRow × List RequestRow × Nat :=
  let out := allocateLoop tickets 0 [] assignments
  (out.1,
   out.2.2.foldl
     (fun rs p => (update_request_approval rs p.1 p.2 "approved").1) reqs,
   out.2.1)

/-- Successful entries of an api_admin_allocate batch: the sublist of
assignment entries whose conditional assign succeeds against the table as
it stands when the entry is processed.  This is the reference list the
batch theorems are stated against. -/
def batchSuccesses (tickets : List TicketRow) :
    List AllocateBody → List AllocateBody
  | [] => []
  | a :: rest =>
    let step := assign_ticket tickets a.gameTicketId a.userId
    if step.2 then a :: batchSuccesses step.1 rest
    else batchSuccesses step.1 rest

/-- Table reached after attempting every assignment of a batch in order
(the ticket-side effect of the api_admin_allocate loop, success or not:
a failed conditional update leaves the table as it was). -/
def applyAssignAll (tickets : List TicketRow) :
    List AllocateBody → List TicketRow
  | [] => tickets
  | a :: rest =>
    applyAssignAll (assign_ticket tickets a.gameTicketId a.userId).1 rest

/-- Request ids carried by the successful assignments of a batch, with
multiplicity, in processing order. -/
def succRequestIds (tickets : List TicketRow)
    (assignments : List AllocateBody) : List Int :=
  (batchSuccesses tickets assignments).filterMap fun a => a.requestId

/-- CreateRequestBody from crates/app/src/main.rs (one entry of the
requests array). -/
structure CreateRequestBody where
  gamePk : Int
  seatsRequested : Int
  notes : Option String
deriving DecidableEq, Repr

/-- Loop of api_my_requests_create from crates/app/src/main.rs: for each
entry in order, first check 1 <= seats_requested <= 4; an out-of-range
entry stops the loop and returns BAD_REQUEST naming the offending value
and game_pk (modelled as some (seats_requested, game_pk)); otherwise
create_ticket_request is applied and the loop continues.  The table state
reached before an early return persists: the handler runs no transaction.
nextId models the autoincrement key for fresh inserts. -/
def createRequestsLoop (reqs : List RequestRow) (userId nextId : Int) :
    List CreateRequestBody → List RequestRow × Option (Int × Int)
  | [] => (reqs, none)
  | b :: rest =>
    if b.seatsRequested < 1 || b.seatsRequested > 4 then
      (reqs, some (b.seatsRequested, b.gamePk))
    else
      createRequestsLoop
        (create_ticket_request reqs userId b.gamePk b.seatsRequested
          b.notes nextId)
        userId (nextId + 1) rest

/-- Table reached after applying create_ticket_request to each entry of a
batch in order (the effect of the api_my_requests_create loop on the
entries it accepts). -/
def applyCreateRequests (reqs : List RequestRow) (userId nextId : Int) :
    List CreateRequestBody → List RequestRow
  | [] => reqs
  | b :: rest =>
    applyCreateRequests
      (create_ticket_request reqs userId b.gamePk b.seatsRequested
        b.notes nextId)
      userId (nextId + 1) rest

/-- api_add_seat from crates/app/src/main.rs: insert the seat with
add_seat (no field validation), then generate its game tickets.  Returns
the seats table, the game_tickets table, the new seat, and the generation
count. -/
def api_add_seat (games : List GameRow) (seats : List SeatRow)
    (tickets : List TicketRow) (sectionName row seat : String)
    (notes : Option String) (newSeatId nextTicketId : Int) :
    List SeatRow × List TicketRow × SeatRow × Nat :=
  let added := add_seat seats sectionName row seat notes newSeatId
  let gen := generate_tickets_for_seat games tickets newSeatId nextTicketId
  (added.1, gen.1, added.2, gen.2.2)

-- --- Invariants and helpers used by the theorems ---

/-- Invariant of the spec: assigned_to is set iff status is assigned; it
is null iff status is available. -/
def ticketInvariant (r : TicketRow) : Prop :=
  (r.assignedTo ≠ none ↔ r.status = "assigned") ∧
  (r.assignedTo = none ↔ r.status = "available")

instance (r : TicketRow) : Decidable (ticketInvariant r) := by
  unfold ticketInvariant; infer_instance

/-- Number of game_tickets rows for a (game, seat) pair. -/
def ticketPairCount (tickets : List TicketRow) (gamePk seatId : Int) : Nat :=
  tickets.countP fun t => t.gamePk == gamePk && t.seatId == seatId

/-- Number of ticket_requests rows for a (user, game) pair. -/
def requestPairCount (reqs : List RequestRow) (userId gamePk : Int) : Nat :=
  reqs.countP (requestForUserGame userId gamePk)

-- --- General lemmas ---

/-- A conditional row update leaves the table unchanged when no row
matches the WHERE clause. -/
theorem map_ite_eq_self {α : Type} (l : List α) (p : α → Bool) (f : α → α)
    (h : ∀ a ∈ l, ¬p a = true) :
    (l.map fun a => if p a then f a else a) = l := by
  induction l with
  | nil => rfl
  | cons x xs ih =>
    have hx : ¬p x = true := h x (List.mem_cons_self x xs)
    simp only [List.map_cons, if_neg hx]
    rw [ih fun a ha => h a (List.mem_cons_of_mem x ha)]

-- Helper lemmas about assign_ticket, shared by the theorems below.

/-- assign_ticket returns true exactly when an available row with the
given id is present. -/
theorem assign_ticket_snd_iff (tickets : List TicketRow) (T u : Int) :
    (assign_ticket tickets T u).2 = true ↔
      ∃ r ∈ tickets, r.id = T ∧ r.status = "available" := by
  simp [assign_ticket, List.countP_pos_iff, availableWithId,
    Bool.and_eq_true, beq_iff_eq, and_assoc]

/-- When assign_ticket returns false no row matched, so the table is
untouched. -/
theorem assign_ticket_fst_of_false (tickets : List TicketRow) (T u : Int)
    (hfalse : (assign_ticket tickets T u).2 = false) :
    (assign_ticket tickets T u).1 = tickets := by
  have h0 : tickets.countP (availableWithId T) = 0 := by
    by_contra hne
    simp [assign_ticket, Nat.pos_of_ne_zero hne] at hfalse
  have hnone := List.countP_eq_zero.mp h0
  exact map_ite_eq_self tickets (availableWithId T) _ hnone

/-- After assign_ticket runs, no row with the given id is available:
matched rows were switched to assigned, unmatched rows were not available
in the first place. -/
theorem assign_ticket_no_available (tickets : List TicketRow) (T u : Int) :
    ∀ r ∈ (assign_ticket tickets T u).1, availableWithId T r = false := by
  intro r hr
  obtain ⟨r₁, hr₁mem, hr₁eq⟩ := List.mem_map.mp hr
  by_cases hmatch : availableWithId T r₁ = true
  · rw [if_pos hmatch] at hr₁eq
    rw [← hr₁eq]
    simp [availableWithId]
  · rw [if_neg hmatch] at hr₁eq
    rw [← hr₁eq]
    exact Bool.eq_false_iff.mpr hmatch

/-- When assign_ticket succeeds on a table whose ids are distinct, the
row with the given id ends assigned to the given user. -/
theorem assign_ticket_assigned_row (tickets : List TicketRow) (T u : Int)
    (huniq : (tickets.map TicketRow.id).Nodup)
    (htrue : (assign_ticket tickets T u).2 = true) :
    ∀ r ∈ (assign_ticket tickets T u).1, r.id = T →
      r.status = "assigned" ∧ r.assignedTo = some u := by
  intro r hr hid
  have hex : ∃ r₀ ∈ tickets, availableWithId T r₀ = true := by
    simpa [assign_ticket, List.countP_pos_iff] using htrue
  obtain ⟨r₀, hr₀mem, hr₀⟩ := hex
  obtain ⟨r₁, hr₁mem, hr₁eq⟩ := List.mem_map.mp hr
  by_cases hmatch : availableWithId T r₁ = true
  · rw [if_pos hmatch] at hr₁eq
    exact ⟨by rw [← hr₁eq], by rw [← hr₁eq]⟩
  · rw [if_neg hmatch] at hr₁eq
    have hid₀ : r₀.id = T := by
      have hc := hr₀
      simp [availableWithId, Bool.and_eq_true, beq_iff_eq] at hc
      exact hc.1
    have hid₁ : r₁.id = T := by rw [hr₁eq]; exact hid
    have heq : r₀ = r₁ :=
      List.inj_on_of_nodup_map huniq hr₀mem hr₁mem (by
        show r₀.id = r₁.id
        rw [hid₀, hid₁])
    rw [heq] at hr₀
    exact absurd hr₀ hmatch

/-- Rows whose id differs from the assigned one survive unchanged. -/
theorem assign_ticket_other_rows (tickets : List TicketRow) (T u : Int) :
    ∀ r ∈ tickets, r.id ≠ T → r ∈ (assign_ticket tickets T u).1 := by
  intro r hr hid
  have hnm : availableWithId T r = false := by
    simp [availableWithId, beq_iff_eq]
    intro h; exact absurd h hid
  refine List.mem_map.mpr ⟨r, hr, ?_⟩
  rw [hnm]
  simp

-- --- C1 ---

/-- C1: assign_ticket(T, u) returns true iff a game_tickets row with id T
exists whose status is available; when it returns true that row ends
assigned with assigned_to = u; when it returns false (row missing or not
available) the table is left unchanged, and no error is raised because the
conditional update is total.  The hypothesis huniq states that id is the
primary key of the game_tickets table. -/
theorem assign_ticket_correct (tickets : List TicketRow) (T u : Int)
    (huniq : (tickets.map TicketRow.id).Nodup) :
    ((assign_ticket tickets T u).2 = true ↔
      ∃ r ∈ tickets, r.id = T ∧ r.status = "available") ∧
    ((assign_ticket tickets T u).2 = false →
      (assign_ticket tickets T u).1 = tickets) ∧
    ((assign_ticket tickets T u).2 = true →
      ∀ r ∈ (assign_ticket tickets T u).1, r.id = T →
        r.status = "assigned" ∧ r.assignedTo = some u) ∧
    (∀ r ∈ tickets, r.id ≠ T → r ∈ (assign_ticket tickets T u).1) :=
  ⟨assign_ticket_snd_iff tickets T u,
   assign_ticket_fst_of_false tickets T u,
   assign_ticket_assigned_row tickets T u huniq,
   assign_ticket_other_rows tickets T u⟩

/-- Witness for C1 at a concrete one-row table. -/
theorem assign_ticket_correct_witness :
    (assign_ticket [⟨1, 100, 10, "available", none, none⟩] 1 7).2 = true ∧
    (assign_ticket [⟨1, 100, 10, "available", none, none⟩] 1 7).1 =
      [⟨1, 100, 10, "assigned", some 7, none⟩] := by
  have h := assign_ticket_correct
    [⟨1, 100, 10, "available", none, none⟩] 1 7 (by decide)
  exact ⟨h.1.mpr ⟨_, List.mem_singleton.mpr rfl, rfl, rfl⟩, by decide⟩

-- --- C2 ---

/-- C2 counterexample: the claim quantifies over every ticket, but when
the ticket is not available at the start both racing assign calls return
false - zero successes, not exactly one - and the final row keeps its old
assignee (here user 3, neither u = 7 nor u2 = 8).  The two serialization
orders of the race are symmetric; order assign(1,7) then assign(1,8) is
shown. -/
theorem assign_race_counterexample :
    (assign_ticket [⟨1, 100, 10, "assigned", some 3, none⟩] 1 7).2
        = false ∧
    (assign_ticket
        (assign_ticket [⟨1, 100, 10, "assigned", some 3, none⟩] 1 7).1
        1 8).2 = false ∧
    (assign_ticket
        (assign_ticket [⟨1, 100, 10, "assigned", some 3, none⟩] 1 7).1
        1 8).1 = [⟨1, 100, 10, "assigned", some 3, none⟩] ∧
    ¬(((assign_ticket [⟨1, 100, 10, "assigned", some 3, none⟩] 1 7).2
          = true ∧
       (assign_ticket
          (assign_ticket [⟨1, 100, 10, "assigned", some 3, none⟩] 1 7).1
          1 8).2 = false) ∨
      ((assign_ticket [⟨1, 100, 10, "assigned", some 3, none⟩] 1 7).2
          = false ∧
       (assign_ticket
          (assign_ticket [⟨1, 100, 10, "assigned", some 3, none⟩] 1 7).1
          1 8).2 = true)) := by
  decide

/-- C2 as amended: provided the ticket exists and is available at the
start of the race, the two racing assign calls resolve to exactly one
success in either serialization order - the first call wins, the second
observes false - and the final row is assigned to the winner, so
concurrent double-assignment is impossible.  Each call is the single
conditional UPDATE of assign_ticket, so an interleaving is one of the two
serialization orders. -/
theorem assign_race_exactly_one (tickets : List TicketRow) (T u u2 : Int)
    (huniq : (tickets.map TicketRow.id).Nodup)
    (h : ∃ r ∈ tickets, r.id = T ∧ r.status = "available") :
    ((assign_ticket tickets T u).2 = true ∧
     (assign_ticket (assign_ticket tickets T u).1 T u2).2 = false ∧
     (∀ r ∈ (assign_ticket (assign_ticket tickets T u).1 T u2).1,
        r.id = T → r.status = "assigned" ∧ r.assignedTo = some u)) ∧
    ((assign_ticket tickets T u2).2 = true ∧
     (assign_ticket (assign_ticket tickets T u2).1 T u).2 = false ∧
     (∀ r ∈ (assign_ticket (assign_ticket tickets T u2).1 T u).1,
        r.id = T → r.status = "assigned" ∧ r.assignedTo = some u2)) := by
  have main : ∀ v w : Int,
      (assign_ticket tickets T v).2 = true ∧
      (assign_ticket (assign_ticket tickets T v).1 T w).2 = false ∧
      (∀ r ∈ (assign_ticket (assign_ticket tickets T v).1 T w).1,
        r.id = T → r.status = "assigned" ∧ r.assignedTo = some v) := by
    intro v w
    have h1 : (assign_ticket tickets T v).2 = true :=
      (assign_ticket_snd_iff tickets T v).mpr h
    have hnav := assign_ticket_no_available tickets T v
    have h2 : (assign_ticket (assign_ticket tickets T v).1 T w).2
        = false := by
      rw [Bool.eq_false_iff]
      intro htrue
      obtain ⟨r, hrmem, hrid, hrst⟩ :=
        (assign_ticket_snd_iff (assign_ticket tickets T v).1 T w).mp htrue
      have := hnav r hrmem
      simp [availableWithId, hrid, hrst] at this
    have hfix : (assign_ticket (assign_ticket tickets T v).1 T w).1
        = (assign_ticket tickets T v).1 :=
      assign_ticket_fst_of_false _ T w h2
    refine ⟨h1, h2, ?_⟩
    rw [hfix]
    exact assign_ticket_assigned_row tickets T v huniq h1
  exact ⟨main u u2, main u2 u⟩

/-- Witness for C2 as amended, at a concrete available ticket. -/
theorem assign_race_exactly_one_witness :
    (assign_ticket [⟨1, 100, 10, "available", none, none⟩] 1 7).2
        = true ∧
    (assign_ticket
        (assign_ticket [⟨1, 100, 10, "available", none, none⟩] 1 7).1
        1 8).2 = false := by
  have h := assign_race_exactly_one
    [⟨1, 100, 10, "available", none, none⟩] 1 7 8 (by decide)
    ⟨_, List.mem_singleton.mpr rfl, rfl, rfl⟩
  exact ⟨h.1.1, h.1.2.1⟩

-- --- C3 ---

/-- C3 counterexample: update_ticket_status writes an arbitrary status
without touching assigned_to, so the direct status update does not
preserve the invariant.  Here a well-formed assigned row (assigned_to = 7)
is moved to status available while assigned_to stays 7. -/
theorem update_ticket_status_breaks_invariant :
    (∀ r ∈ [(⟨1, 100, 10, "assigned", some 7, none⟩ : TicketRow)],
      ticketInvariant r) ∧
    ¬(∀ r ∈ (update_ticket_status
        [(⟨1, 100, 10, "assigned", some 7, none⟩ : TicketRow)]
        1 "available" none).1, ticketInvariant r) := by
  decide

/-- C3 as amended: the invariant (assigned_to set iff status assigned,
null iff status available) is preserved by assign, revoke and release,
but not by the direct status update: update_ticket_status sets whatever
status the caller supplies and leaves assigned_to as it was, so it can
break the invariant. -/
theorem ticket_ops_preserve_invariant (tickets : List TicketRow)
    (T g u : Int) (h : ∀ r ∈ tickets, ticketInvariant r) :
    (∀ r ∈ (assign_ticket tickets T u).1, ticketInvariant r) ∧
    (∀ r ∈ (revoke_ticket tickets T).1, ticketInvariant r) ∧
    (∀ r ∈ (release_tickets_for_game tickets g u).1, ticketInvariant r) := by
  refine ⟨?_, ?_, ?_⟩
  · intro r hr
    obtain ⟨r₀, hr₀, hre⟩ := List.mem_map.mp hr
    by_cases hc : availableWithId T r₀ = true
    · rw [if_pos hc] at hre
      rw [← hre]
      simp [ticketInvariant]
    · rw [if_neg hc] at hre
      rw [← hre]
      exact h r₀ hr₀
  · intro r hr
    obtain ⟨r₀, hr₀, hre⟩ := List.mem_map.mp hr
    by_cases hc : assignedWithId T r₀ = true
    · rw [if_pos hc] at hre
      rw [← hre]
      simp [ticketInvariant]
    · rw [if_neg hc] at hre
      rw [← hre]
      exact h r₀ hr₀
  · intro r hr
    obtain ⟨r₀, hr₀, hre⟩ := List.mem_map.mp hr
    by_cases hc : assignedInGame g u r₀ = true
    · rw [if_pos hc] at hre
      rw [← hre]
      simp [ticketInvariant]
    · rw [if_neg hc] at hre
      rw [← hre]
      exact h r₀ hr₀

/-- Witness for C3 as amended, at a concrete one-row table: the row
produced by assigning the single available ticket to user 7 satisfies the
invariant. -/
theorem ticket_ops_preserve_invariant_witness :
    ticketInvariant ⟨1, 100, 10, "assigned", some 7, none⟩ :=
  (ticket_ops_preserve_invariant
      [⟨1, 100, 10, "available", none, none⟩] 1 100 7 (by decide)).1
    ⟨1, 100, 10, "assigned", some 7, none⟩ (by decide)

-- Helper lemmas about insertTicketsIfAbsent, shared by the generation
-- theorems.

/-- hasTicketFor is the positivity of the pair count. -/
theorem hasTicketFor_iff_pos (tickets : List TicketRow) (g s : Int) :
    hasTicketFor tickets g s = true ↔ 0 < ticketPairCount tickets g s := by
  simp [hasTicketFor, ticketPairCount, List.any_eq_true,
    List.countP_pos_iff]

/-- Insertion only appends: every previous row is still in the table. -/
theorem insertTickets_mem (pairs : List (Int × Int)) :
    ∀ (tickets : List TicketRow) (n : Int) (r : TicketRow), r ∈ tickets →
      r ∈ (insertTicketsIfAbsent tickets n pairs).1 := by
  induction pairs with
  | nil => intro t n r hr; exact hr
  | cons p rest ih =>
    intro t n r hr
    by_cases hc : hasTicketFor t p.1 p.2 = true
    · simp only [insertTicketsIfAbsent, if_pos hc]
      exact ih t n r hr
    · simp only [insertTicketsIfAbsent, if_neg hc]
      exact ih _ _ r (List.mem_append_left _ hr)

/-- Every row of the output is either a previous row or a freshly
inserted available one. -/
theorem insertTickets_new_rows (pairs : List (Int × Int)) :
    ∀ (tickets : List TicketRow) (n : Int),
      ∀ r ∈ (insertTicketsIfAbsent tickets n pairs).1,
        r ∈ tickets ∨ (r.status = "available" ∧ r.assignedTo = none) := by
  induction pairs with
  | nil => intro t n r hr; exact Or.inl hr
  | cons p rest ih =>
    intro t n r hr
    by_cases hc : hasTicketFor t p.1 p.2 = true
    · simp only [insertTicketsIfAbsent, if_pos hc] at hr
      exact ih t n r hr
    · simp only [insertTicketsIfAbsent, if_neg hc] at hr
      rcases ih _ _ r hr with hmem | hnew
      · rcases List.mem_append.mp hmem with hold | hsingle
        · exact Or.inl hold
        · rcases List.mem_singleton.mp hsingle with rfl
          exact Or.inr ⟨rfl, rfl⟩
      · exact Or.inr hnew

/-- A pair already present stays present through further insertions. -/
theorem insertTickets_preserves_pair (pairs : List (Int × Int))
    (tickets : List TicketRow) (n : Int) (g s : Int)
    (h : hasTicketFor tickets g s = true) :
    hasTicketFor (insertTicketsIfAbsent tickets n pairs).1 g s = true := by
  obtain ⟨r, hrmem, hrp⟩ := List.any_eq_true.mp h
  exact List.any_eq_true.mpr
    ⟨r, insertTickets_mem pairs tickets n r hrmem, hrp⟩

/-- After insertion every candidate pair is present in the table. -/
theorem insertTickets_pairs_present (pairs : List (Int × Int)) :
    ∀ (tickets : List TicketRow) (n : Int), ∀ p ∈ pairs,
      hasTicketFor (insertTicketsIfAbsent tickets n pairs).1 p.1 p.2
        = true := by
  induction pairs with
  | nil => intro t n p hp; exact absurd hp (List.not_mem_nil p)
  | cons q rest ih =>
    intro t n p hp
    by_cases hc : hasTicketFor t q.1 q.2 = true
    · simp only [insertTicketsIfAbsent, if_pos hc]
      rcases List.mem_cons.mp hp with rfl | hprest
      · exact insertTickets_preserves_pair rest t n p.1 p.2 hc
      · exact ih t n p hprest
    · simp only [insertTicketsIfAbsent, if_neg hc]
      rcases List.mem_cons.mp hp with rfl | hprest
      · refine insertTickets_preserves_pair rest _ _ p.1 p.2 ?_
        refine List.any_eq_true.mpr ⟨⟨n, p.1, p.2, "available", none, none⟩,
          List.mem_append_right _ (List.mem_singleton.mpr rfl), ?_⟩
        simp
      · exact ih _ _ p hprest

/-- When every candidate pair is already present the insertion is a
no-op: same table, same next id, zero rows affected. -/
theorem insertTickets_noop (pairs : List (Int × Int)) :
    ∀ (tickets : List TicketRow) (n : Int),
      (∀ p ∈ pairs, hasTicketFor tickets p.1 p.2 = true) →
      insertTicketsIfAbsent tickets n pairs = (tickets, n, 0) := by
  induction pairs with
  | nil => intro t n _; rfl
  | cons q rest ih =>
    intro t n h
    have hq : hasTicketFor t q.1 q.2 = true := h q (List.mem_cons_self q rest)
    simp only [insertTicketsIfAbsent, if_pos hq]
    exact ih t n fun p hp => h p (List.mem_cons_of_mem q hp)

/-- Insertion keeps the at-most-one-ticket-per-pair invariant of the
unique (game_pk, seat_id) index. -/
theorem insertTickets_pair_count (pairs : List (Int × Int)) :
    ∀ (tickets : List TicketRow) (n : Int),
      (∀ g s, ticketPairCount tickets g s ≤ 1) →
      ∀ g s, ticketPairCount (insertTicketsIfAbsent tickets n pairs).1 g s
        ≤ 1 := by
  induction pairs with
  | nil => intro t n h g s; exact h g s
  | cons q rest ih =>
    intro t n h g s
    by_cases hc : hasTicketFor t q.1 q.2 = true
    · simp only [insertTicketsIfAbsent, if_pos hc]
      exact ih t n h g s
    · simp only [insertTicketsIfAbsent, if_neg hc]
      refine ih _ _ ?_ g s
      intro g0 s0
      have hz : ticketPairCount t q.1 q.2 = 0 := by
        by_contra hne
        exact hc ((hasTicketFor_iff_pos t q.1 q.2).mpr
          (Nat.pos_of_ne_zero hne))
      by_cases hgs : g0 = q.1 ∧ s0 = q.2
      · rcases hgs with ⟨rfl, rfl⟩
        simp only [ticketPairCount, List.countP_append] at *
        simp only [List.countP_singleton]
        rw [hz]
        simp
      · simp only [ticketPairCount, List.countP_append,
          List.countP_singleton]
        have hone : (((⟨n, q.1, q.2, "available", none, none⟩ :
            TicketRow).gamePk == g0 &&
            (⟨n, q.1, q.2, "available", none, none⟩ :
            TicketRow).seatId == s0) : Bool) = false := by
          simp only [Bool.and_eq_false_iff, beq_eq_false_iff_ne, ne_eq]
          by_cases hg : q.1 = g0
          · right
            intro hs
            exact hgs ⟨hg.symm, hs.symm⟩
          · left
            exact hg
        rw [hone]
        simpa using h g0 s0

-- --- C4 ---

/-- C4: ticket generation is idempotent.  Running
generate_tickets_for_seat (or generate_tickets_for_all_seats) a second
time is a no-op returning 0; after the first run each (seat, home game)
pair has exactly one ticket (given the unique (game_pk, seat_id) index,
stated as the pair-count hypothesis); pre-existing rows - in particular
already assigned tickets - are carried over unchanged, and every new row
is a fresh available one. -/
theorem ticket_generation_idempotent (games : List GameRow)
    (seats : List SeatRow) (tickets : List TicketRow) (s n1 n2 : Int)
    (hpair : ∀ g s0, ticketPairCount tickets g s0 ≤ 1) :
    (generate_tickets_for_seat games
        (generate_tickets_for_seat games tickets s n1).1 s n2
      = ((generate_tickets_for_seat games tickets s n1).1, n2, 0)) ∧
    (∀ g ∈ games, g.homeTeamName = giants_team_name →
      ticketPairCount (generate_tickets_for_seat games tickets s n1).1
        g.gamePk s = 1) ∧
    (∀ r ∈ tickets, r ∈ (generate_tickets_for_seat games tickets s n1).1) ∧
    (∀ r ∈ (generate_tickets_for_seat games tickets s n1).1,
      r ∈ tickets ∨ (r.status = "available" ∧ r.assignedTo = none)) ∧
    (generate_tickets_for_all_seats games seats
        (generate_tickets_for_all_seats games seats tickets n1).1 n2
      = ((generate_tickets_for_all_seats games seats tickets n1).1,
         n2, 0)) ∧
    (∀ g ∈ games, g.homeTeamName = giants_team_name → ∀ st ∈ seats,
      ticketPairCount
        (generate_tickets_for_all_seats games seats tickets n1).1
        g.gamePk st.id = 1) ∧
    (∀ r ∈ tickets,
      r ∈ (generate_tickets_for_all_seats games seats tickets n1).1) ∧
    (∀ r ∈ (generate_tickets_for_all_seats games seats tickets n1).1,
      r ∈ tickets ∨ (r.status = "available" ∧ r.assignedTo = none)) := by
  refine ⟨?_, ?_, ?_, ?_, ?_, ?_, ?_, ?_⟩
  · exact insertTickets_noop _ _ n2
      (insertTickets_pairs_present (homeGamePairsForSeat games s)
        tickets n1)
  · intro g hg hhome
    have hp : (g.gamePk, s) ∈ homeGamePairsForSeat games s :=
      List.mem_map.mpr ⟨g, List.mem_filter.mpr
        ⟨hg, by simp [hhome]⟩, rfl⟩
    have hpres := insertTickets_pairs_present
      (homeGamePairsForSeat games s) tickets n1 (g.gamePk, s) hp
    have hge1 := (hasTicketFor_iff_pos _ g.gamePk s).mp hpres
    have hle1 := insertTickets_pair_count (homeGamePairsForSeat games s)
      tickets n1 hpair g.gamePk s
    show ticketPairCount
      (insertTicketsIfAbsent tickets n1 (homeGamePairsForSeat games s)).1
      g.gamePk s = 1
    omega
  · exact fun r hr =>
      insertTickets_mem (homeGamePairsForSeat games s) tickets n1 r hr
  · exact insertTickets_new_rows (homeGamePairsForSeat games s) tickets n1
  · exact insertTickets_noop _ _ n2
      (insertTickets_pairs_present (homeGamePairsAllSeats games seats)
        tickets n1)
  · intro g hg hhome st hst
    have hp : (g.gamePk, st.id) ∈ homeGamePairsAllSeats games seats :=
      List.mem_flatMap.mpr ⟨g, List.mem_filter.mpr ⟨hg, by simp [hhome]⟩,
        List.mem_map.mpr ⟨st, hst, rfl⟩⟩
    have hpres := insertTickets_pairs_present
      (homeGamePairsAllSeats games seats) tickets n1 (g.gamePk, st.id) hp
    have hge1 := (hasTicketFor_iff_pos _ g.gamePk st.id).mp hpres
    have hle1 := insertTickets_pair_count
      (homeGamePairsAllSeats games seats) tickets n1 hpair g.gamePk st.id
    show ticketPairCount
      (insertTicketsIfAbsent tickets n1
        (homeGamePairsAllSeats games seats)).1 g.gamePk st.id = 1
    omega
  · exact fun r hr => insertTickets_mem
      (homeGamePairsAllSeats games seats) tickets n1 r hr
  · exact insertTickets_new_rows (homeGamePairsAllSeats games seats)
      tickets n1

/-- Witness for C4: one home game, one seat, an empty ticket table; the
first run creates the ticket, the second run is a no-op and the pair has
exactly one ticket. -/
theorem ticket_generation_idempotent_witness :
    (generate_tickets_for_seat
        [⟨100, "San Francisco Giants", "LA", "2025-04-01", "2025-04-01"⟩]
        (generate_tickets_for_seat
          [⟨100, "San Francisco Giants", "LA", "2025-04-01",
            "2025-04-01"⟩] [] 10 1).1 10 5
      = ((generate_tickets_for_seat
          [⟨100, "San Francisco Giants", "LA", "2025-04-01",
            "2025-04-01"⟩] [] 10 1).1, 5, 0)) ∧
    ticketPairCount
      (generate_tickets_for_seat
        [⟨100, "San Francisco Giants", "LA", "2025-04-01",
          "2025-04-01"⟩] [] 10 1).1 100 10 = 1 := by
  have h := ticket_generation_idempotent
    [⟨100, "San Francisco Giants", "LA", "2025-04-01", "2025-04-01"⟩]
    [⟨10, "127", "A", "3", none⟩] [] 10 1 5
    (fun g s0 => by simp [ticketPairCount])
  exact ⟨h.1, h.2.1 _ (List.mem_singleton.mpr rfl) rfl⟩

-- Helper lemmas about the approvals map of api_admin_allocate.

/-- Bumping a request id increments its entry (0 when absent). -/
theorem bumpApproval_lookup_self (m : List (Int × Int)) (rid : Int) :
    List.lookup rid (bumpApproval m rid)
      = some ((List.lookup rid m).getD 0 + 1) := by
  induction m with
  | nil => simp [bumpApproval, List.lookup]
  | cons p rest ih =>
    obtain ⟨k, v⟩ := p
    by_cases hk : k = rid
    · subst hk
      simp [bumpApproval, List.lookup]
    · simp [bumpApproval, beq_eq_false_iff_ne.mpr hk, List.lookup,
        beq_eq_false_iff_ne.mpr (Ne.symm hk), ih]

/-- Bumping a request id leaves the other entries alone. -/
theorem bumpApproval_lookup_other (m : List (Int × Int)) (rid k : Int)
    (h : k ≠ rid) :
    List.lookup k (bumpApproval m rid) = List.lookup k m := by
  induction m with
  | nil => simp [bumpApproval, List.lookup, beq_eq_false_iff_ne.mpr h]
  | cons p rest ih =>
    obtain ⟨k0, v⟩ := p
    by_cases hk : k0 = rid
    · subst hk
      simp [bumpApproval, List.lookup, beq_eq_false_iff_ne.mpr h]
    · by_cases hkk : k = k0
      · subst hkk
        simp [bumpApproval, beq_eq_false_iff_ne.mpr hk, List.lookup]
      · simp [bumpApproval, beq_eq_false_iff_ne.mpr hk, List.lookup,
          beq_eq_false_iff_ne.mpr hkk, ih]

/-- Keys of the approvals map after bumping a key that is present. -/
theorem bumpApproval_keys_of_mem (m : List (Int × Int)) (rid : Int)
    (h : rid ∈ m.map Prod.fst) :
    (bumpApproval m rid).map Prod.fst = m.map Prod.fst := by
  induction m with
  | nil => exact absurd h (by simp)
  | cons p rest ih =>
    obtain ⟨k0, v⟩ := p
    by_cases hk : k0 = rid
    · subst hk
      simp [bumpApproval]
    · have hrest : rid ∈ rest.map Prod.fst := by
        rw [List.map_cons, List.mem_cons] at h
        rcases h with h1 | h2
        · exact absurd h1.symm hk
        · exact h2
      simp [bumpApproval, beq_eq_false_iff_ne.mpr hk, ih hrest]

/-- Keys of the approvals map after bumping a fresh key. -/
theorem bumpApproval_keys_of_not_mem (m : List (Int × Int)) (rid : Int)
    (h : rid ∉ m.map Prod.fst) :
    (bumpApproval m rid).map Prod.fst = m.map Prod.fst ++ [rid] := by
  induction m with
  | nil => simp [bumpApproval]
  | cons p rest ih =>
    obtain ⟨k0, v⟩ := p
    by_cases hk : k0 = rid
    · subst hk
      exact absurd (by simp) h
    · have hrest : rid ∉ rest.map Prod.fst := by
        intro hr
        exact h (by simp [hr])
      simp [bumpApproval, beq_eq_false_iff_ne.mpr hk, ih hrest]

/-- Bumping preserves distinctness of the approvals-map keys. -/
theorem bumpApproval_keys_nodup (m : List (Int × Int)) (rid : Int)
    (h : (m.map Prod.fst).Nodup) :
    ((bumpApproval m rid).map Prod.fst).Nodup := by
  by_cases hmem : rid ∈ m.map Prod.fst
  · rw [bumpApproval_keys_of_mem m rid hmem]
    exact h
  · rw [bumpApproval_keys_of_not_mem m rid hmem]
    exact List.nodup_append.mpr ⟨h, List.nodup_singleton rid,
      by intro a ha hb; rw [List.mem_singleton.mp hb] at ha;
         exact hmem ha⟩

/-- Folding bumps over a list of request ids: each key ends with its
multiplicity added to its starting value. -/
theorem lookup_foldl_bump (rids : List Int) :
    ∀ (apprs : List (Int × Int)) (k : Int),
      List.lookup k (rids.foldl bumpApproval apprs)
        = if rids.count k = 0 then List.lookup k apprs
          else some ((List.lookup k apprs).getD 0 + (rids.count k : Int)) := by
  induction rids with
  | nil => intro apprs k; simp
  | cons r rest ih =>
    intro apprs k
    rw [List.foldl_cons, ih (bumpApproval apprs r) k]
    by_cases hk : k = r
    · subst hk
      rw [bumpApproval_lookup_self, List.count_cons_self]
      by_cases hc : rest.count k = 0
      · rw [if_pos hc, if_neg (by omega), hc]
        simp
      · rw [if_neg hc, if_neg (by omega)]
        rw [Option.getD_some]
        congr 1
        push_cast
        ring
    · rw [bumpApproval_lookup_other apprs r k hk,
        List.count_cons_of_ne hk]

/-- Distinctness of the approvals-map keys survives the whole fold. -/
theorem foldl_bump_keys_nodup (rids : List Int) :
    ∀ apprs : List (Int × Int), (apprs.map Prod.fst).Nodup →
      ((rids.foldl bumpApproval apprs).map Prod.fst).Nodup := by
  induction rids with
  | nil => intro a h; exact h
  | cons r rest ih =>
    intro a h
    exact ih _ (bumpApproval_keys_nodup a r h)

/-- Lookup misses when the key is not among the keys. -/
theorem lookup_eq_none_of_not_mem (m : List (Int × Int)) (k : Int)
    (h : k ∉ m.map Prod.fst) : List.lookup k m = none := by
  induction m with
  | nil => rfl
  | cons p rest ih =>
    obtain ⟨k0, v⟩ := p
    have hne : k ≠ k0 := by
      intro he
      exact h (by simp [he])
    have hrest : k ∉ rest.map Prod.fst := by
      intro hr
      exact h (by simp [hr])
    simp [List.lookup, beq_eq_false_iff_ne.mpr hne, ih hrest]

/-- The assignment loop of api_admin_allocate computes the fold of the
conditional assigns, counts the successes, and folds a bump into the
approvals map for each successful entry that carries a request id. -/
theorem allocateLoop_spec (assignments : List AllocateBody) :
    ∀ (tickets : List TicketRow) (cnt : Nat) (apprs : List (Int × Int)),
      allocateLoop tickets cnt apprs assignments
        = (applyAssignAll tickets assignments,
           cnt + (batchSuccesses tickets assignments).length,
           (succRequestIds tickets assignments).foldl bumpApproval
             apprs) := by
  induction assignments with
  | nil =>
    intro t c a
    simp [allocateLoop, applyAssignAll, batchSuccesses, succRequestIds]
  | cons b rest ih =>
    intro t c a
    by_cases hok : (assign_ticket t b.gameTicketId b.userId).2 = true
    · cases hrid : b.requestId with
      | some rid =>
        simp only [allocateLoop, applyAssignAll, batchSuccesses,
          succRequestIds, hok, if_true, hrid, List.filterMap_cons]
        rw [ih]
        simp [succRequestIds]
        omega
      | none =>
        simp only [allocateLoop, applyAssignAll, batchSuccesses,
          succRequestIds, hok, if_true, hrid, List.filterMap_cons]
        rw [ih]
        simp [succRequestIds]
        omega
    · have hok' : (assign_ticket t b.gameTicketId b.userId).2 = false :=
        Bool.eq_false_iff.mpr hok
      simp only [allocateLoop, applyAssignAll, batchSuccesses,
        succRequestIds, hok', Bool.false_eq_true, if_false]
      rw [ih]
      simp [succRequestIds]

/-- Folding update_request_approval over an approvals map with distinct
keys updates each request row once: its seats_approved is incremented by
its entry of the map and its status set to approved, rows without an
entry are untouched. -/
theorem foldl_update_approval (apprs : List (Int × Int)) :
    ∀ reqs : List RequestRow, (apprs.map Prod.fst).Nodup →
      apprs.foldl
          (fun rs p => (update_request_approval rs p.1 p.2 "approved").1)
          reqs
        = reqs.map (fun r =>
            match List.lookup r.id apprs with
            | some k => { r with seatsApproved := r.seatsApproved + k,
                                 status := "approved" }
            | none => r) := by
  induction apprs with
  | nil =>
    intro reqs _
    simp [List.lookup]
  | cons p rest ih =>
    obtain ⟨rid, k⟩ := p
    intro reqs hnd
    rw [List.map_cons, List.nodup_cons] at hnd
    rw [List.foldl_cons, ih _ hnd.2]
    simp only [update_request_approval, List.map_map]
    apply List.map_congr_left
    intro r _
    by_cases hid : r.id = rid
    · have hbeq : (r.id == rid) = true := beq_iff_eq.mpr hid
      simp only [Function.comp_apply, hbeq, if_true]
      have hnone : List.lookup
          ({ r with seatsApproved := r.seatsApproved + k,
                    status := "approved" } : RequestRow).id rest = none := by
        apply lookup_eq_none_of_not_mem
        show r.id ∉ rest.map Prod.fst
        rw [hid]
        exact hnd.1
      rw [hnone]
      have hcons : List.lookup r.id ((rid, k) :: rest) = some k := by
        simp [List.lookup, hbeq]
      rw [hcons]
    · have hbeq : (r.id == rid) = false := beq_eq_false_iff_ne.mpr hid
      simp only [Function.comp_apply, hbeq, Bool.false_eq_true, if_false]
      have hcons : List.lookup r.id ((rid, k) :: rest)
          = List.lookup r.id rest := by
        simp [List.lookup, hbeq]
      rw [hcons]

-- --- C5 ---

/-- C5: api_admin_allocate processes each assignment independently and
returns the number of successful conditional assigns (entries whose
ticket is missing or not available fail the conditional update, are not
counted, and abort nothing); after the loop each request row r is
updated exactly once: its seats_approved is incremented by the number of
successful assignments carrying request_id = r.id and its status is set
to approved when that number is positive, while rows carried by no
successful assignment are untouched.  Incrementing (rather than
storing) makes repeated calls additive. -/
theorem api_admin_allocate_correct (tickets : List TicketRow)
    (reqs : List RequestRow) (assignments : List AllocateBody) :
    (api_admin_allocate tickets reqs assignments).2.2
      = (batchSuccesses tickets assignments).length ∧
    (api_admin_allocate tickets reqs assignments).1
      = applyAssignAll tickets assignments ∧
    (api_admin_allocate tickets reqs assignments).2.1
      = reqs.map (fun r =>
          if (succRequestIds tickets assignments).count r.id = 0 then r
          else { r with
              seatsApproved := r.seatsApproved +
                ((succRequestIds tickets assignments).count r.id : Int),
              status := "approved" }) := by
  have hloop := allocateLoop_spec assignments tickets 0 []
  refine ⟨?_, ?_, ?_⟩
  · simp [api_admin_allocate, hloop]
  · simp [api_admin_allocate, hloop]
  · simp only [api_admin_allocate, hloop]
    rw [foldl_update_approval _ reqs
      (foldl_bump_keys_nodup (succRequestIds tickets assignments) []
        (by simp))]
    apply List.map_congr_left
    intro r _
    rw [lookup_foldl_bump (succRequestIds tickets assignments) [] r.id]
    by_cases hc : (succRequestIds tickets assignments).count r.id = 0
    · rw [if_pos hc, if_pos hc]
      simp [List.lookup]
    · rw [if_neg hc, if_neg hc]
      simp [List.lookup]

-- --- C6 ---

/-- C6: create_ticket_request is an upsert on the (user, game) key: it
keeps at most one row per pair; on a pair with an existing non-withdrawn
request it rewrites seats_requested and notes of that row in place,
leaving id, status and seats_approved alone; on a pair with a withdrawn
request it also moves the status back to pending, again preserving
seats_approved; rows of other pairs are untouched and no duplicate row is
created (the table length is unchanged whenever the pair exists).  The
hypothesis is the UNIQUE(user_id, game_pk) constraint of the table. -/
theorem create_ticket_request_upsert (reqs : List RequestRow)
    (u g seats newId : Int) (notes : Option String)
    (hpair : ∀ u0 g0, requestPairCount reqs u0 g0 ≤ 1) :
    (∀ u0 g0, requestPairCount
        (create_ticket_request reqs u g seats notes newId) u0 g0 ≤ 1) ∧
    (∀ r ∈ reqs, r.userId = u → r.gamePk = g → r.status ≠ "withdrawn" →
      { r with seatsRequested := seats, notes := notes }
        ∈ create_ticket_request reqs u g seats notes newId) ∧
    (∀ r ∈ reqs, r.userId = u → r.gamePk = g → r.status = "withdrawn" →
      { r with seatsRequested := seats, notes := notes,
               status := "pending" }
        ∈ create_ticket_request reqs u g seats notes newId) ∧
    ((∃ r ∈ reqs, r.userId = u ∧ r.gamePk = g) →
      (create_ticket_request reqs u g seats notes newId).length
        = reqs.length) ∧
    (∀ r ∈ reqs, ¬(r.userId = u ∧ r.gamePk = g) →
      r ∈ create_ticket_request reqs u g seats notes newId) := by
  refine ⟨?_, ?_, ?_, ?_, ?_⟩
  · intro u0 g0
    by_cases hany : reqs.any (requestForUserGame u g) = true
    · rw [create_ticket_request, if_pos hany]
      rw [requestPairCount, List.countP_map]
      refine le_trans (le_of_eq (List.countP_congr ?_)) (hpair u0 g0)
      intro r _
      by_cases hc : requestForUserGame u g r = true
      · simp only [Function.comp_apply, if_pos hc]
        simp [requestForUserGame]
      · simp only [Function.comp_apply, if_neg hc]
    · rw [create_ticket_request, if_neg hany]
      rw [requestPairCount, List.countP_append, List.countP_singleton]
      by_cases hug : u0 = u ∧ g0 = g
      · rcases hug with ⟨rfl, rfl⟩
        have hz : reqs.countP (requestForUserGame u0 g0) = 0 := by
          rw [List.countP_eq_zero]
          intro r hr
          intro hp
          exact hany (List.any_eq_true.mpr ⟨r, hr, hp⟩)
        rw [hz]
        split <;> omega
      · have hp0 : requestForUserGame u0 g0
            (⟨newId, u, g, seats, 0, "pending", notes⟩ : RequestRow)
            = false := by
          simp only [requestForUserGame, Bool.and_eq_false_iff,
            beq_eq_false_iff_ne, ne_eq]
          by_cases hu : u0 = u
          · right
            intro hgg
            exact hug ⟨hu, hgg.symm⟩
          · left
            intro huu
            exact hu huu.symm
        rw [hp0]
        have := hpair u0 g0
        rw [requestPairCount] at this
        simpa using this
  · intro r hr hu hg hst
    have hany : reqs.any (requestForUserGame u g) = true :=
      List.any_eq_true.mpr ⟨r, hr, by simp [requestForUserGame, hu, hg]⟩
    rw [create_ticket_request, if_pos hany]
    refine List.mem_map.mpr ⟨r, hr, ?_⟩
    rw [if_pos (by simp [requestForUserGame, hu, hg])]
    have hbeq : (r.status == "withdrawn") = false :=
      beq_eq_false_iff_ne.mpr hst
    rw [hbeq]
    rfl
  · intro r hr hu hg hst
    have hany : reqs.any (requestForUserGame u g) = true :=
      List.any_eq_true.mpr ⟨r, hr, by simp [requestForUserGame, hu, hg]⟩
    rw [create_ticket_request, if_pos hany]
    refine List.mem_map.mpr ⟨r, hr, ?_⟩
    rw [if_pos (by simp [requestForUserGame, hu, hg])]
    have hbeq : (r.status == "withdrawn") = true := beq_iff_eq.mpr hst
    simp [hbeq]
  · intro hex
    obtain ⟨r, hr, hu, hg⟩ := hex
    have hany : reqs.any (requestForUserGame u g) = true :=
      List.any_eq_true.mpr ⟨r, hr, by simp [requestForUserGame, hu, hg]⟩
    rw [create_ticket_request, if_pos hany]
    exact List.length_map reqs _
  · intro r hr hnm
    by_cases hany : reqs.any (requestForUserGame u g) = true
    · rw [create_ticket_request, if_pos hany]
      refine List.mem_map.mpr ⟨r, hr, ?_⟩
      rw [if_neg ?_]
      intro hp
      simp only [requestForUserGame, Bool.and_eq_true, beq_iff_eq] at hp
      exact hnm hp
    · rw [create_ticket_request, if_neg hany]
      exact List.mem_append_left _ hr

/-- Witness for C6: a withdrawn request for (user 7, game 100) with one
approved seat is reactivated to pending with the new seats_requested and
its seats_approved intact. -/
theorem create_ticket_request_upsert_witness :
    (⟨5, 7, 100, 3, 1, "pending", none⟩ : RequestRow)
      ∈ create_ticket_request
          [⟨5, 7, 100, 2, 1, "withdrawn", none⟩] 7 100 3 none 9 := by
  have h := create_ticket_request_upsert
    [⟨5, 7, 100, 2, 1, "withdrawn", none⟩] 7 100 3 9 none
    (by
      intro u0 g0
      rw [requestPairCount, List.countP_singleton]
      split <;> omega)
  exact h.2.2.1 _ (List.mem_singleton.mpr rfl) rfl rfl rfl

-- --- C7 ---

/-- C7 counterexample: the handler validates inside the loop, not up
front.  In a batch whose first entry is valid (2 seats for game 101) and
whose second entry is invalid (5 seats for game 102), the loop aborts at
the second entry naming game 102, but the first request row has already
been created - the batch is not mutation-free. -/
theorem create_requests_batch_partial_mutation :
    (createRequestsLoop [] 7 1
        [⟨101, 2, none⟩, ⟨102, 5, none⟩]).2 = some (5, 102) ∧
    (createRequestsLoop [] 7 1
        [⟨101, 2, none⟩, ⟨102, 5, none⟩]).1
      = [⟨1, 7, 101, 2, 0, "pending", none⟩] := by
  decide

-- Helper lemmas about the api_my_requests_create loop.

/-- A batch whose entries are all in range runs to completion: every
entry is applied and no error is returned. -/
theorem createRequestsLoop_all_valid (userId : Int) :
    ∀ body : List CreateRequestBody,
      (∀ x ∈ body,
        (x.seatsRequested < 1 || x.seatsRequested > 4) = false) →
      ∀ (reqs : List RequestRow) (nextId : Int),
        createRequestsLoop reqs userId nextId body
          = (applyCreateRequests reqs userId nextId body, none) := by
  intro body
  induction body with
  | nil => intro _ reqs nextId; rfl
  | cons x rest ih =>
    intro h reqs nextId
    have hx := h x (List.mem_cons_self x rest)
    simp only [createRequestsLoop, applyCreateRequests, hx,
      Bool.false_eq_true, if_false]
    exact ih (fun y hy => h y (List.mem_cons_of_mem x hy)) _ _

/-- The loop stops at the first out-of-range entry, keeping the rows
created for the entries before it. -/
theorem createRequestsLoop_stops (userId : Int) (b : CreateRequestBody)
    (hb : (b.seatsRequested < 1 || b.seatsRequested > 4) = true)
    (post : List CreateRequestBody) :
    ∀ pre : List CreateRequestBody,
      (∀ x ∈ pre,
        (x.seatsRequested < 1 || x.seatsRequested > 4) = false) →
      ∀ (reqs : List RequestRow) (nextId : Int),
        createRequestsLoop reqs userId nextId (pre ++ b :: post)
          = (applyCreateRequests reqs userId nextId pre,
             some (b.seatsRequested, b.gamePk)) := by
  intro pre
  induction pre with
  | nil =>
    intro _ reqs nextId
    simp only [List.nil_append, createRequestsLoop, applyCreateRequests,
      hb, if_true]
  | cons x rest ih =>
    intro h reqs nextId
    have hx := h x (List.mem_cons_self x rest)
    simp only [List.cons_append, createRequestsLoop,
      applyCreateRequests, hx, Bool.false_eq_true, if_false]
    exact ih (fun y hy => h y (List.mem_cons_of_mem x hy)) _ _

/-- C7 as amended: every entry is validated to have seats_requested in
[1,4] and the first invalid entry aborts the remainder of the batch with
a ValidationError naming the offending game_pk, but the validation
happens inside the processing loop rather than before any mutation: the
entries before the first invalid one have already been created or
updated when the batch is rejected (and an all-valid batch is processed
in full with no error). -/
theorem create_requests_batch_validation (reqs : List RequestRow)
    (userId nextId : Int) (body : List CreateRequestBody) :
    ((∀ x ∈ body, 1 ≤ x.seatsRequested ∧ x.seatsRequested ≤ 4) →
      createRequestsLoop reqs userId nextId body
        = (applyCreateRequests reqs userId nextId body, none)) ∧
    (∀ pre b post, body = pre ++ b :: post →
      (∀ x ∈ pre, 1 ≤ x.seatsRequested ∧ x.seatsRequested ≤ 4) →
      (b.seatsRequested < 1 ∨ 4 < b.seatsRequested) →
      createRequestsLoop reqs userId nextId body
        = (applyCreateRequests reqs userId nextId pre,
           some (b.seatsRequested, b.gamePk))) := by
  constructor
  · intro h
    refine createRequestsLoop_all_valid userId body ?_ reqs nextId
    intro x hx
    have := h x hx
    simp only [Bool.or_eq_false_iff, decide_eq_false_iff_not, not_lt]
    omega
  · intro pre b post hsplit hpre hb
    subst hsplit
    refine createRequestsLoop_stops userId b ?_ post pre ?_ reqs nextId
    · rcases hb with hb | hb <;> simp [hb]
    · intro x hx
      have := hpre x hx
      simp only [Bool.or_eq_false_iff, decide_eq_false_iff_not, not_lt]
      omega

/-- Witness for C7 as amended: entries with 1 and 4 seats are accepted,
the 5-seat entry for game 103 aborts the batch naming game 103, and the
two accepted entries have already been applied. -/
theorem create_requests_batch_validation_witness :
    createRequestsLoop [] 7 1
        [⟨101, 1, none⟩, ⟨102, 4, none⟩, ⟨103, 5, none⟩, ⟨104, 2, none⟩]
      = (applyCreateRequests [] 7 1 [⟨101, 1, none⟩, ⟨102, 4, none⟩],
         some (5, 103)) := by
  have h := (create_requests_batch_validation [] 7 1
    [⟨101, 1, none⟩, ⟨102, 4, none⟩, ⟨103, 5, none⟩, ⟨104, 2, none⟩]).2
    [⟨101, 1, none⟩, ⟨102, 4, none⟩] ⟨103, 5, none⟩ [⟨104, 2, none⟩]
    rfl (by decide) (by decide)
  exact h

-- --- C8 ---

/-- C8: release_tickets_for_game(g, u) reverts exactly the rows of game g
currently assigned to u - each becomes available with assigned_to
cleared - returns their number, and mutates nothing else: a row of
another game, a row assigned to another user, or an unassigned row stays
exactly as it was, position by position. -/
theorem release_tickets_frame (tickets : List TicketRow) (g u : Int) :
    ((release_tickets_for_game tickets g u).2
      = tickets.countP (assignedInGame g u)) ∧
    ((release_tickets_for_game tickets g u).1.length = tickets.length) ∧
    (∀ (i : Nat) (r : TicketRow), tickets[i]? = some r →
      (r.gamePk = g ∧ r.assignedTo = some u →
        (release_tickets_for_game tickets g u).1[i]?
          = some { r with status := "available", assignedTo := none }) ∧
      (r.gamePk ≠ g ∨ r.assignedTo ≠ some u →
        (release_tickets_for_game tickets g u).1[i]? = some r)) := by
  refine ⟨rfl, by simp [release_tickets_for_game], ?_⟩
  intro i r hir
  have hmap : (release_tickets_for_game tickets g u).1[i]?
      = (tickets[i]?).map (fun r =>
          if assignedInGame g u r then
            { r with assignedTo := none, status := "available" }
          else r) := by
    exact List.getElem?_map _ tickets i
  constructor
  · intro hmatch
    rw [hmap, hir, Option.map_some']
    rw [if_pos (by simp [assignedInGame, hmatch.1, hmatch.2])]
  · intro hmiss
    rw [hmap, hir, Option.map_some']
    rw [if_neg ?_]
    simp only [assignedInGame, Bool.and_eq_true, beq_iff_eq]
    rintro ⟨h1, h2⟩
    rcases hmiss with hm | hm
    · exact hm h1
    · exact hm h2

/-- Witness for C8: of three assigned tickets, only the one of game 100
assigned to user 7 is released; the same game with another user and
another game with the same user are untouched. -/
theorem release_tickets_frame_witness :
    (release_tickets_for_game
        [⟨1, 100, 10, "assigned", some 7, none⟩,
         ⟨2, 100, 11, "assigned", some 8, none⟩,
         ⟨3, 200, 12, "assigned", some 7, none⟩] 100 7).1[0]?
      = some ⟨1, 100, 10, "available", none, none⟩ ∧
    (release_tickets_for_game
        [⟨1, 100, 10, "assigned", some 7, none⟩,
         ⟨2, 100, 11, "assigned", some 8, none⟩,
         ⟨3, 200, 12, "assigned", some 7, none⟩] 100 7).1[1]?
      = some ⟨2, 100, 11, "assigned", some 8, none⟩ ∧
    (release_tickets_for_game
        [⟨1, 100, 10, "assigned", some 7, none⟩,
         ⟨2, 100, 11, "assigned", some 8, none⟩,
         ⟨3, 200, 12, "assigned", some 7, none⟩] 100 7).1[2]?
      = some ⟨3, 200, 12, "assigned", some 7, none⟩ := by
  have h := release_tickets_frame
    [⟨1, 100, 10, "assigned", some 7, none⟩,
     ⟨2, 100, 11, "assigned", some 8, none⟩,
     ⟨3, 200, 12, "assigned", some 7, none⟩] 100 7
  exact ⟨(h.2.2 0 _ rfl).1 ⟨rfl, rfl⟩,
    (h.2.2 1 _ rfl).2 (Or.inr (by decide)),
    (h.2.2 2 _ rfl).2 (Or.inl (by decide))⟩

-- --- C9 ---

/-- C9: every row of the allocation summary endpoint reports, for its
home game, the ticket total, the assigned and available counts, and
total_requested summing seats_requested over the pending requests of the
game only; the oversubscribed flag is computed by the handler as
total_requested > available.  Requests that are not pending (withdrawn or
approved) do not contribute: prepending such a request to the table
leaves the whole summary unchanged. -/
theorem allocation_summary_pending_only (games : List GameRow)
    (tickets : List TicketRow) (reqs : List RequestRow) :
    (∀ row ∈ api_admin_allocation games tickets reqs,
      row.totalRequested
        = ((reqs.filter (pendingForGame row.gamePk)).map
            (fun r => r.seatsRequested)).sum ∧
      row.totalSeats
        = ((tickets.filter fun t => t.gamePk == row.gamePk).length : Int) ∧
      row.assigned
        = ((tickets.filter fun t => t.gamePk == row.gamePk).countP
            (fun t => t.status == "assigned") : Int) ∧
      row.available
        = ((tickets.filter fun t => t.gamePk == row.gamePk).countP
            (fun t => t.status == "available") : Int) ∧
      (row.oversubscribed = true ↔
        row.available < row.totalRequested)) ∧
    (∀ extra : RequestRow, extra.status ≠ "pending" →
      api_admin_allocation games tickets (extra :: reqs)
        = api_admin_allocation games tickets reqs) := by
  constructor
  · intro row hrow
    obtain ⟨t, ht, hmt⟩ := List.mem_filterMap.mp hrow
    obtain ⟨g0, hg0, hsome⟩ := List.mem_filterMap.mp ht
    by_cases hemp : (tickets.filter fun tk => tk.gamePk == g0.gamePk).isEmpty
    · rw [if_pos hemp] at hsome
      exact absurd hsome (by simp)
    · rw [if_neg hemp] at hsome
      have ht' := (Option.some.inj hsome).symm
      subst ht'
      revert hmt
      cases hfind : games.find? (fun g => g.gamePk == g0.gamePk) with
      | none => intro hmt; exact absurd hmt (by simp)
      | some g1 =>
        intro hmt
        have hrow' := (Option.some.inj hmt).symm
        subst hrow'
        refine ⟨rfl, rfl, rfl, rfl, ?_⟩
        simp [decide_eq_true_iff]
  · intro extra hextra
    have hsum : allocation_summary games tickets (extra :: reqs)
        = allocation_summary games tickets reqs := by
      unfold allocation_summary
      apply List.filterMap_congr
      intro g _
      have hfe : pendingForGame g.gamePk extra = false := by
        simp [pendingForGame, beq_eq_false_iff_ne.mpr hextra]
      simp only [List.filter_cons, hfe, Bool.false_eq_true, if_false]
    unfold api_admin_allocation
    rw [hsum]

/-- Witness for C9: one home game with one assigned and one available
ticket, and one pending (3 seats), one approved, one withdrawn request;
total_requested is 3 (the pending request only), the game is
oversubscribed since 1 < 3, and prepending another withdrawn request
changes nothing. -/
theorem allocation_summary_pending_only_witness :
    (⟨100, "2025-04-01", "LA", 2, 1, 1, 3, true⟩ :
        AllocationSummaryRow).totalRequested
      = ((([⟨1, 7, 100, 3, 0, "pending", none⟩,
            ⟨2, 8, 100, 2, 2, "approved", none⟩,
            ⟨3, 9, 100, 4, 0, "withdrawn", none⟩] :
           List RequestRow).filter (pendingForGame 100)).map
          (fun r => r.seatsRequested)).sum ∧
    api_admin_allocation
        [⟨100, "San Francisco Giants", "LA", "2025-04-01", "2025-04-01"⟩]
        [⟨1, 100, 10, "assigned", some 7, none⟩,
         ⟨2, 100, 11, "available", none, none⟩]
        (⟨4, 9, 100, 4, 0, "withdrawn", none⟩ ::
          [⟨1, 7, 100, 3, 0, "pending", none⟩,
           ⟨2, 8, 100, 2, 2, "approved", none⟩,
           ⟨3, 9, 100, 4, 0, "withdrawn", none⟩])
      = api_admin_allocation
        [⟨100, "San Francisco Giants", "LA", "2025-04-01", "2025-04-01"⟩]
        [⟨1, 100, 10, "assigned", some 7, none⟩,
         ⟨2, 100, 11, "available", none, none⟩]
        [⟨1, 7, 100, 3, 0, "pending", none⟩,
         ⟨2, 8, 100, 2, 2, "approved", none⟩,
         ⟨3, 9, 100, 4, 0, "withdrawn", none⟩] := by
  have h := allocation_summary_pending_only
    [⟨100, "San Francisco Giants", "LA", "2025-04-01", "2025-04-01"⟩]
    [⟨1, 100, 10, "assigned", some 7, none⟩,
     ⟨2, 100, 11, "available", none, none⟩]
    [⟨1, 7, 100, 3, 0, "pending", none⟩,
     ⟨2, 8, 100, 2, 2, "approved", none⟩,
     ⟨3, 9, 100, 4, 0, "withdrawn", none⟩]
  exact ⟨(h.1 ⟨100, "2025-04-01", "LA", 2, 1, 1, 3, true⟩ (by decide)).1,
    h.2 ⟨4, 9, 100, 4, 0, "withdrawn", none⟩ (by decide)⟩

-- --- C10 ---

/-- C10 counterexample: add_seat is a bare INSERT and api_add_seat adds
no check either, so a seat with section, row and seat all empty is
created without any error instead of being rejected with a
ValidationError. -/
theorem add_seat_accepts_empty_fields :
    (add_seat [] "" "" "" none 1).1 = [⟨1, "", "", "", none⟩] ∧
    (add_seat [] "" "" "" none 1).2 = ⟨1, "", "", "", none⟩ ∧
    (api_add_seat [] [] [] "" "" "" none 1 1).1
      = [⟨1, "", "", "", none⟩] := by
  decide

/-- C10 as amended: add_seat validates nothing: for every input,
including empty required fields, it appends exactly one new seat row
carrying the given field values, keeps every existing row, and returns
the new row; api_add_seat passes the fields through unchecked.  There is
no ValidationError path. -/
theorem add_seat_no_validation (seats : List SeatRow)
    (sectionName row seat : String) (notes : Option String) (newId : Int)
    (games : List GameRow) (tickets : List TicketRow)
    (nextTicketId : Int) :
    ((add_seat seats sectionName row seat notes newId).1.length
      = seats.length + 1) ∧
    ((⟨newId, sectionName, row, seat, notes⟩ : SeatRow)
      ∈ (add_seat seats sectionName row seat notes newId).1) ∧
    (∀ x ∈ seats, x ∈ (add_seat seats sectionName row seat notes newId).1) ∧
    ((add_seat seats sectionName row seat notes newId).2
      = ⟨newId, sectionName, row, seat, notes⟩) ∧
    ((api_add_seat games seats tickets sectionName row seat notes newId
        nextTicketId).1
      = seats ++ [⟨newId, sectionName, row, seat, notes⟩]) ∧
    ((api_add_seat games seats tickets sectionName row seat notes newId
        nextTicketId).2.2.1
      = ⟨newId, sectionName, row, seat, notes⟩) := by
  refine ⟨?_, ?_, ?_, rfl, rfl, rfl⟩
  · simp [add_seat]
  · simp [add_seat]
  · intro x hx
    exact List.mem_append_left _ hx

/-- Witness for C10 as amended: an all-empty seat is appended and the
pre-existing seat row is kept. -/
theorem add_seat_no_validation_witness :
    (⟨2, "", "", "", none⟩ : SeatRow)
      ∈ (add_seat [⟨1, "127", "A", "3", none⟩] "" "" "" none 2).1 ∧
    (⟨1, "127", "A", "3", none⟩ : SeatRow)
      ∈ (add_seat [⟨1, "127", "A", "3", none⟩] "" "" "" none 2).1 := by
  have h := add_seat_no_validation [⟨1, "127", "A", "3", none⟩]
    "" "" "" none 2 [] [] 1
  exact ⟨h.2.1, h.2.2.1 _ (List.mem_singleton.mpr rfl)⟩
